import Mathlib

/-!
Shallow embedding of the quality-encoding inference and rescaling engine of
`fx_tools` (`src/apps/fx_tools/fx_convert.cpp`).

Quality bytes are modelled as `ℤ` values: the C++ code reads them into a
(signed) `char`, so all comparisons in `updateQualityFormatGuess` are signed
comparisons.  The `double` computations inside `buildConversionTable` are
modelled by parameterising the table builder over an oracle `rawq : ℕ → ℤ`
giving the (truncated-to-`int`) value of the `-10*log10(...)` expression for
each source byte; an exact real-valued instantiation of the oracle
(`rawQualityExact`/`errorProb`) is provided for evaluating concrete entries.
-/

/-- Mirror of `QualityFormatGuess::BestGuess` (fx_convert.cpp, lines 248-254). -/
inductive BestGuess
  | NONE
  | SANGER
  | SOLEXA
  | ILLUMINA
deriving DecidableEq

/-- Mirror of `struct QualityFormatGuess` (fx_convert.cpp, lines 241-258):
three flags telling whether the given format is still possible. -/
structure QualityFormatGuess where
  sanger : Bool
  solexa : Bool
  illumina : Bool
deriving DecidableEq

/-- The default constructor initialises all three flags to `true`
(fx_convert.cpp, line 256). -/
def initialGuess : QualityFormatGuess := ⟨true, true, true⟩

/-- Mirror of `bestGuess` (fx_convert.cpp, lines 262-274).  The C++ sums the
three `bool` flags as ints and requires the sum to be exactly 1. -/
def bestGuess (guess : QualityFormatGuess) : BestGuess :=
  if guess.sanger.toNat + guess.solexa.toNat + guess.illumina.toNat ≠ 1 then
    BestGuess.NONE
  else if guess.sanger then BestGuess.SANGER
  else if guess.solexa then BestGuess.SOLEXA
  else if guess.illumina then BestGuess.ILLUMINA
  else BestGuess.NONE

/-- Mirror of `updateQualityFormatGuess` (fx_convert.cpp, lines 278-298).
Returns `none` exactly when the C++ function returns `false` (the invalid
quality byte branch).  Note that the C++ guard is literally
`c < 33 && c > 104` (a conjunction), which is reproduced here verbatim. -/
def updateQualityFormatGuess (guess : QualityFormatGuess) (quals : List ℤ) :
    Option QualityFormatGuess :=
  match quals with
  | [] => some guess
  | c :: rest =>
    if c < 33 ∧ c > 104 then
      none
    else
      updateQualityFormatGuess
        { sanger := if c > 74 then false else guess.sanger
          solexa := if c < 59 then false else guess.solexa
          illumina := if c < 64 then false else guess.illumina }
        rest

/-- The driver loop of `runConvert` calls `updateQualityFormatGuess` once per
record (fx_convert.cpp, lines 438-448), aborting as soon as one call fails. -/
def updateMany (guess : QualityFormatGuess) (qss : List (List ℤ)) :
    Option QualityFormatGuess :=
  match qss with
  | [] => some guess
  | qs :: rest =>
    match updateQualityFormatGuess guess qs with
    | none => none
    | some g => updateMany g rest

/-- The minimum source byte value selected in `buildConversionTable`
(fx_convert.cpp, lines 312-331); `none` models the `SEQAN_FAIL` abort for an
unknown source. -/
def sourceFrom : BestGuess → Option ℕ
  | BestGuess.SANGER => some 33
  | BestGuess.SOLEXA => some 59
  | BestGuess.ILLUMINA => some 64
  | BestGuess.NONE => none

/-- The default-fill loop of `buildConversionTable` (fx_convert.cpp, lines
333-342).  For `target == NONE` none of the three `if` branches assigns, so
the entry stays uninitialised; this is modelled as `none`. -/
def initEntry (target : BestGuess) (fromv i : ℕ) : Option ℤ :=
  match target with
  | BestGuess.SANGER => some (if i ≤ fromv then 33 else 73)
  | BestGuess.SOLEXA => some (if i ≤ fromv then 59 else 104)
  | BestGuess.ILLUMINA => some (if i ≤ fromv then 64 else 104)
  | BestGuess.NONE => none

/-- The clamp-and-offset step of the refinement loop of `buildConversionTable`
(fx_convert.cpp, lines 357-385), applied to the `int` value `q0` obtained from
the `double` computation.  The two sequential `if` statements of each branch
are reproduced literally; in the C++ the final branch is a bare `else`, so a
`NONE` target also falls into the Illumina case. -/
def loopEntry (target : BestGuess) (q0 : ℤ) : ℤ :=
  match target with
  | BestGuess.SANGER =>
    let q1 := if q0 < 0 then 0 else q0
    let q2 := if q1 > 93 then 93 else q1
    q2 + 33
  | BestGuess.SOLEXA =>
    let q1 := if q0 < -5 then -5 else q0
    let q2 := if q1 > 62 then 62 else q1
    q2 + 64
  | _ =>
    let q1 := if q0 < 0 then 62 else q0
    let q2 := if q1 > 0 then 62 else q1
    q2 + 64

/-- Mirror of `buildConversionTable` (fx_convert.cpp, lines 307-392) as a
function from byte index to table entry.  The refinement loop runs over
`i` in `[fromv, 126]` (`to` is always 126) and overwrites the default fill
there; `rawq i` is the oracle for the truncated-to-`int` result of the
floating-point `-10*log10(...)` expression for byte `i` of this
(source, target) pair. -/
def buildConversionTable (source target : BestGuess) (rawq : ℕ → ℤ) (i : ℕ) :
    Option ℤ :=
  match sourceFrom source with
  | none => none
  | some fromv =>
    if fromv ≤ i ∧ i ≤ 126 then some (loopEntry target (rawq i))
    else initEntry target fromv i

/-- Truncation of a real toward zero, the semantics of the C++
`double`-to-`int` conversion in `q = -10.0 * log10(p)`. -/
noncomputable def truncD (x : ℝ) : ℤ := if 0 ≤ x then ⌊x⌋ else ⌈x⌉

/-- The error probability assigned to source byte `i` (fx_convert.cpp, lines
346-353), with the `double` arithmetic read as exact real arithmetic. -/
noncomputable def errorProb (source : BestGuess) (i : ℕ) : ℝ :=
  match source with
  | BestGuess.SOLEXA => 1 / ((10 : ℝ) ^ (((i : ℝ) - 64) / 10) + 1)
  | BestGuess.ILLUMINA => (10 : ℝ) ^ (((i : ℝ) - 64) / (-10 : ℝ))
  | _ => (10 : ℝ) ^ (((i : ℝ) - 33) / (-10 : ℝ))

/-- The pre-clamp quality value computed from the error probability `p`
(fx_convert.cpp, lines 358-379), with the `double` arithmetic read as exact
real arithmetic and the `int` conversion as truncation toward zero.  Only the
`SOLEXA` target uses the log-odds form; the `SANGER` and `ILLUMINA` branches
both compute `-10*log10(p)`. -/
noncomputable def rawQualityExact (target : BestGuess) (p : ℝ) : ℤ :=
  match target with
  | BestGuess.SOLEXA => truncD (-10 * Real.logb 10 (p / (1 - p)))
  | _ => truncD (-10 * Real.logb 10 p)

/-- The exact-real oracle for `buildConversionTable`'s floating-point step. -/
noncomputable def exactRawq (source target : BestGuess) (i : ℕ) : ℤ :=
  rawQualityExact target (errorProb source i)

/-- Mirror of `FxConvertOptions::Format` (fx_convert.cpp, lines 80-87). -/
inductive Format
  | AUTO
  | FASTA
  | FASTQ_ILLUMINA
  | FASTQ_SANGER
  | FASTQ_SOLEXA
deriving DecidableEq

/-- The options of `FxConvertOptions` (fx_convert.cpp, lines 61-95) that feed
the conversion engine; the I/O-path, verbosity and gzip options are out of
scope.  `keepNs` is accepted but never read by the conversion logic. -/
structure FxConvertOptions where
  renameToNumbers : Bool
  keepNs : Bool
  guessFormat : Bool
  sourceFormat : Format
  targetFormat : Format
deriving DecidableEq

/-- A parsed FASTQ record handed to the engine by the record source. -/
structure FxRecord where
  id : String
  seq : String
  qual : List ℤ
deriving DecidableEq

/-- A record handed to the record sink: identifier, sequence, and the quality
string when the target format carries qualities. -/
structure OutRecord where
  id : String
  seq : String
  qual : Option (List ℤ)
deriving DecidableEq

/-- The `format` string chosen in `runConvert` (fx_convert.cpp, lines
482-493); the `default:` branch of the `switch` maps everything that is not
`SOLEXA` or `ILLUMINA` to the Sanger content type. -/
def formatString : BestGuess → String
  | BestGuess.SOLEXA => "text/x-fastq-solexa"
  | BestGuess.ILLUMINA => "text/x-fastq-illumina"
  | _ => "text/x-fastq-sanger"

/-- The candidate list printed when the guess is ambiguous (fx_convert.cpp,
lines 455-460): one entry per still-possible format, in the order
Sanger, Solexa, Illumina. -/
def survivors (g : QualityFormatGuess) : List BestGuess :=
  (if g.sanger then [BestGuess.SANGER] else []) ++
    (if g.solexa then [BestGuess.SOLEXA] else []) ++
      (if g.illumina then [BestGuess.ILLUMINA] else [])

/-- Reading `qualityConversionTable[static_cast<__uint8>(*it)]`
(fx_convert.cpp, line 567): the signed char is cast to an unsigned byte
before indexing.  The `getD 0` default is never hit for the tables the
driver builds (their entries are all defined, see the totality theorem). -/
def tableLookup (table : ℕ → Option ℤ) (c : ℤ) : ℤ :=
  (table (c % 256).toNat).getD 0

/-- The per-record quality conversion of `runConvert` (fx_convert.cpp, lines
560-571): remap every byte through the table iff the guessed source format
differs from the output format. -/
def convertQuality (formatGuess outFormat : BestGuess) (table : ℕ → Option ℤ)
    (qual : List ℤ) : List ℤ :=
  if formatGuess ≠ outFormat then qual.map (tableLookup table) else qual

/-- Outcome of the source-format determination phase of `runConvert`
(fx_convert.cpp, lines 432-480).  Each failure constructor corresponds to a
`return 1` (or `SEQAN_FAIL`) path. -/
inductive GuessOutcome
  | ok (formatGuess : BestGuess)
  | updateFailed
  | ambiguousFail (guess : QualityFormatGuess)
  | badSourceFormat
deriving DecidableEq

/-- The source-format determination phase of `runConvert` (fx_convert.cpp,
lines 432-480): in `AUTO` mode, pre-scan every record's quality string
through `updateQualityFormatGuess` and take `bestGuess`; otherwise map the
explicitly given option (the `default:` branch is a `SEQAN_FAIL`). -/
def guessStep (opts : FxConvertOptions) (recs : List FxRecord) : GuessOutcome :=
  if opts.sourceFormat = Format.AUTO then
    match updateMany initialGuess (recs.map FxRecord.qual) with
    | none => GuessOutcome.updateFailed
    | some g =>
      match bestGuess g with
      | BestGuess.NONE => GuessOutcome.ambiguousFail g
      | fg => GuessOutcome.ok fg
  else
    match opts.sourceFormat with
    | Format.FASTQ_ILLUMINA => GuessOutcome.ok BestGuess.ILLUMINA
    | Format.FASTQ_SANGER => GuessOutcome.ok BestGuess.SANGER
    | Format.FASTQ_SOLEXA => GuessOutcome.ok BestGuess.SOLEXA
    | _ => GuessOutcome.badSourceFormat

/-- The `outFormat` selection of `runConvert` (fx_convert.cpp, lines
509-524); `FASTA` and `AUTO` map to `NONE` (drop qualities). -/
def targetOutFormat : Format → BestGuess
  | Format.FASTQ_ILLUMINA => BestGuess.ILLUMINA
  | Format.FASTQ_SANGER => BestGuess.SANGER
  | Format.FASTQ_SOLEXA => BestGuess.SOLEXA
  | _ => BestGuess.NONE

/-- One iteration of the write loop of `runConvert` (fx_convert.cpp, lines
531-579): optional renumbering (`num` is the 1-based counter), then either a
FASTA record without qualities or a FASTQ record with (possibly remapped)
qualities. -/
def writeOneRecord (opts : FxConvertOptions) (formatGuess outFormat : BestGuess)
    (table : ℕ → Option ℤ) (num : ℕ) (r : FxRecord) : OutRecord :=
  let ident := if opts.renameToNumbers then toString num else r.id
  if outFormat = BestGuess.NONE then ⟨ident, r.seq, none⟩
  else ⟨ident, r.seq, some (convertQuality formatGuess outFormat table r.qual)⟩

/-- The write loop of `runConvert` over all records, threading the 1-based
renumbering counter. -/
def writeRecords (opts : FxConvertOptions) (formatGuess outFormat : BestGuess)
    (table : ℕ → Option ℤ) (recs : List FxRecord) : List OutRecord :=
  recs.enum.map fun p => writeOneRecord opts formatGuess outFormat table (p.1 + 1) p.2

/-- Observable result of the FASTQ branch of `runConvert`: the guess-only
diagnostic line written to `out`, the ambiguity candidates printed to
`stderr`, the records handed to the sink, and the exit code. -/
structure ConvertResult where
  diagnostic : Option String
  ambiguous : Option (List BestGuess)
  records : List OutRecord
  exitCode : ℕ
deriving DecidableEq

/-- The FASTQ branch of `runConvert` (fx_convert.cpp, lines 425-580),
parameterised over the floating-point oracle `rawq` for the conversion
table. -/
def runConvertFastq (opts : FxConvertOptions)
    (rawq : BestGuess → BestGuess → ℕ → ℤ) (recs : List FxRecord) :
    ConvertResult :=
  match guessStep opts recs with
  | GuessOutcome.updateFailed => ⟨none, none, [], 1⟩
  | GuessOutcome.ambiguousFail g => ⟨none, some (survivors g), [], 1⟩
  | GuessOutcome.badSourceFormat => ⟨none, none, [], 1⟩
  | GuessOutcome.ok formatGuess =>
    if opts.guessFormat then
      ⟨some ("content-type: " ++ formatString formatGuess ++ "\n"), none, [], 0⟩
    else
      let outFormat := targetOutFormat opts.targetFormat
      let table := buildConversionTable formatGuess outFormat (rawq formatGuess outFormat)
      ⟨none, none, writeRecords opts formatGuess outFormat table recs, 0⟩

/-!  Lemmas shared by several claim theorems. -/

/-- Closed form of `updateQualityFormatGuess`: the invalid-byte guard
`c < 33 && c > 104` is unsatisfiable, so the update always succeeds, and each
flag survives exactly when every byte of the string respects the flag's
narrowing bound. -/
theorem updateQualityFormatGuess_eq (qs : List ℤ) :
    ∀ g : QualityFormatGuess,
      updateQualityFormatGuess g qs =
        some ⟨g.sanger && qs.all (fun c => decide (c ≤ 74)),
              g.solexa && qs.all (fun c => decide (59 ≤ c)),
              g.illumina && qs.all (fun c => decide (64 ≤ c))⟩ := by
  induction qs with
  | nil =>
    intro g
    simp [updateQualityFormatGuess]
  | cons c rest ih =>
    intro g
    rw [updateQualityFormatGuess, if_neg (by omega), ih]
    simp only [List.all_cons, Option.some.injEq, QualityFormatGuess.mk.injEq]
    refine ⟨?_, ?_, ?_⟩
    · by_cases h : c > 74
      · simp [h, show ¬ c ≤ 74 by omega]
      · simp [h, show c ≤ 74 by omega, Bool.and_assoc]
    · by_cases h : c < 59
      · simp [h, show ¬ 59 ≤ c by omega]
      · simp [h, show 59 ≤ c by omega, Bool.and_assoc]
    · by_cases h : c < 64
      · simp [h, show ¬ 64 ≤ c by omega]
      · simp [h, show 64 ≤ c by omega, Bool.and_assoc]

/-- `List.all` only depends on which elements occur in the list. -/
theorem all_eq_of_mem_iff {p : ℤ → Bool} {a b : List ℤ}
    (h : ∀ c, c ∈ a ↔ c ∈ b) : a.all p = b.all p := by
  cases hb : b.all p
  · rw [List.all_eq_false] at hb ⊢
    obtain ⟨c, hc, hpc⟩ := hb
    exact ⟨c, (h c).2 hc, hpc⟩
  · rw [List.all_eq_true] at hb ⊢
    exact fun c hc => hb c ((h c).1 hc)

/-- Splitting an update over a concatenation of quality strings. -/
theorem updateQualityFormatGuess_append (a : List ℤ) :
    ∀ (g : QualityFormatGuess) (b : List ℤ),
      updateQualityFormatGuess g (a ++ b) =
        (updateQualityFormatGuess g a).bind fun h => updateQualityFormatGuess h b := by
  induction a with
  | nil =>
    intro g b
    simp [updateQualityFormatGuess]
  | cons c rest ih =>
    intro g b
    rw [List.cons_append, updateQualityFormatGuess, updateQualityFormatGuess]
    by_cases h : c < 33 ∧ c > 104
    · simp [h]
    · rw [if_neg h, if_neg h, ih]

/-!  Claim theorems. -/

/-- C1 (code defect): the spec demands that a quality byte outside [33, 104]
abort the run with `InvalidQualityByte`, but the code's guard is the
unsatisfiable conjunction `c < 33 && c > 104`, so it never fires.  In
particular a quality byte of value 10 is processed without error (it merely
clears the Solexa and Illumina flags), and no input whatsoever makes
`updateQualityFormatGuess` fail. -/
theorem invalidByteGuard_never_fires :
    updateQualityFormatGuess initialGuess [10] = some ⟨true, false, false⟩ ∧
    ∀ (g : QualityFormatGuess) (qs : List ℤ),
      updateQualityFormatGuess g qs ≠ none := by
  refine ⟨by decide, fun g qs => ?_⟩
  rw [updateQualityFormatGuess_eq]
  simp

/-- C3: for a byte in the legal band [33, 104], one update step clears
`sanger` iff `c > 74`, clears `solexa` iff `c < 59`, clears `illumina` iff
`c < 64`, and nothing else changes any flag (each flag stays `true` unless
it was already `false` or its own bound fires). -/
theorem narrowing_characterization (g : QualityFormatGuess) (c : ℤ)
    (_h33 : 33 ≤ c) (_h104 : c ≤ 104) :
    ∃ g', updateQualityFormatGuess g [c] = some g' ∧
      (g'.sanger = false ↔ (g.sanger = false ∨ 74 < c)) ∧
      (g'.solexa = false ↔ (g.solexa = false ∨ c < 59)) ∧
      (g'.illumina = false ↔ (g.illumina = false ∨ c < 64)) := by
  refine ⟨_, updateQualityFormatGuess_eq [c] g, ?_, ?_, ?_⟩ <;>
    · rcases g with ⟨s, x, il⟩
      cases s <;> cases x <;> cases il <;> simp

/-- C3 witness: the characterization applied to byte 80 from the fresh
guess. -/
theorem narrowing_characterization_witness :
    ((33 : ℤ) ≤ 80) ∧ ((80 : ℤ) ≤ 104) ∧
    ∃ g', updateQualityFormatGuess ⟨true, true, true⟩ [80] = some g' ∧
      (g'.sanger = false ↔ ((true : Bool) = false ∨ (74 : ℤ) < 80)) ∧
      (g'.solexa = false ↔ ((true : Bool) = false ∨ (80 : ℤ) < 59)) ∧
      (g'.illumina = false ↔ ((true : Bool) = false ∨ (80 : ℤ) < 64)) :=
  ⟨by decide, by decide,
    narrowing_characterization ⟨true, true, true⟩ 80 (by decide) (by decide)⟩

/-- C5: over any sequence of update calls, each of the three flags is
non-increasing: the flags of the final state are `≤` (as booleans) the flags
of the initial state, so a flag that is `false` can never become `true`. -/
theorem flags_monotone (g g' : QualityFormatGuess) (qss : List (List ℤ))
    (h : updateMany g qss = some g') :
    g'.sanger ≤ g.sanger ∧ g'.solexa ≤ g.solexa ∧ g'.illumina ≤ g.illumina := by
  induction qss generalizing g with
  | nil =>
    rw [updateMany] at h
    cases h
    exact ⟨le_refl _, le_refl _, le_refl _⟩
  | cons qs rest ih =>
    rw [updateMany, updateQualityFormatGuess_eq] at h
    obtain ⟨h1, h2, h3⟩ := ih _ h
    refine ⟨le_trans h1 ?_, le_trans h2 ?_, le_trans h3 ?_⟩ <;>
      exact Bool.and_le_left _ _

/-- C5 witness: updating the fresh guess with the quality string `[35]`. -/
theorem flags_monotone_witness :
    updateMany initialGuess [[35]] = some ⟨true, false, false⟩ ∧
    ((⟨true, false, false⟩ : QualityFormatGuess).sanger ≤ initialGuess.sanger ∧
     (⟨true, false, false⟩ : QualityFormatGuess).solexa ≤ initialGuess.solexa ∧
     (⟨true, false, false⟩ : QualityFormatGuess).illumina ≤ initialGuess.illumina) :=
  ⟨by decide, flags_monotone initialGuess ⟨true, false, false⟩ [[35]] (by decide)⟩

/-- C10: the update is compositional (updating with `a ++ b` is updating with
`a` and then with `b`) and its result depends only on the set of byte values
in the input, not on their order or multiplicity. -/
theorem update_compositional :
    (∀ (g : QualityFormatGuess) (a b : List ℤ),
      updateQualityFormatGuess g (a ++ b) =
        (updateQualityFormatGuess g a).bind fun h => updateQualityFormatGuess h b) ∧
    (∀ (g : QualityFormatGuess) (a b : List ℤ), a.toFinset = b.toFinset →
      updateQualityFormatGuess g a = updateQualityFormatGuess g b) := by
  refine ⟨fun g a b => updateQualityFormatGuess_append a g b, fun g a b h => ?_⟩
  have hmem : ∀ c, c ∈ a ↔ c ∈ b := fun c => by
    rw [← List.mem_toFinset, h, List.mem_toFinset]
  rw [updateQualityFormatGuess_eq, updateQualityFormatGuess_eq,
    all_eq_of_mem_iff hmem, all_eq_of_mem_iff hmem, all_eq_of_mem_iff hmem]

/-- C10 witness: `[35, 70]` and `[70, 35, 35]` have the same value set, so
updating with either yields the same state. -/
theorem update_compositional_witness :
    ([35, 70] : List ℤ).toFinset = ([70, 35, 35] : List ℤ).toFinset ∧
    updateQualityFormatGuess initialGuess [35, 70] =
      updateQualityFormatGuess initialGuess [70, 35, 35] :=
  ⟨by decide, update_compositional.2 initialGuess [35, 70] [70, 35, 35] (by decide)⟩

/-- C4: `bestGuess` returns a concrete format iff exactly one flag is `true`,
and then it is the format whose flag survived; when zero or several flags
survive in `AUTO` mode, the run exits with code 1 carrying exactly the list
of surviving candidates and emits no record. -/
theorem bestGuess_characterization :
    (∀ s x i : Bool,
      (bestGuess ⟨s, x, i⟩ = BestGuess.SANGER ↔ s = true ∧ x = false ∧ i = false) ∧
      (bestGuess ⟨s, x, i⟩ = BestGuess.SOLEXA ↔ s = false ∧ x = true ∧ i = false) ∧
      (bestGuess ⟨s, x, i⟩ = BestGuess.ILLUMINA ↔ s = false ∧ x = false ∧ i = true)) ∧
    (∀ (opts : FxConvertOptions) (recs : List FxRecord) (g : QualityFormatGuess),
      opts.sourceFormat = Format.AUTO →
      updateMany initialGuess (recs.map FxRecord.qual) = some g →
      bestGuess g = BestGuess.NONE →
      guessStep opts recs = GuessOutcome.ambiguousFail g) ∧
    (∀ (opts : FxConvertOptions) (rawq : BestGuess → BestGuess → ℕ → ℤ)
        (recs : List FxRecord) (g : QualityFormatGuess),
      guessStep opts recs = GuessOutcome.ambiguousFail g →
      runConvertFastq opts rawq recs = ⟨none, some (survivors g), [], 1⟩) := by
  refine ⟨by decide, fun opts recs g hs hup hbg => ?_, fun opts rawq recs g h => ?_⟩
  · rw [guessStep, if_pos hs, hup]
    simp only [hbg]
  · rw [runConvertFastq, h]

/-- C4 witness: a single record whose quality string is `[70]` leaves all
three flags set, so `AUTO` guessing is ambiguous and the run aborts with
all three candidates. -/
theorem bestGuess_characterization_witness :
    guessStep ⟨false, false, false, Format.AUTO, Format.FASTA⟩ [⟨"r", "A", [70]⟩] =
      GuessOutcome.ambiguousFail ⟨true, true, true⟩ ∧
    runConvertFastq ⟨false, false, false, Format.AUTO, Format.FASTA⟩
        (fun _ _ _ => 0) [⟨"r", "A", [70]⟩] =
      ⟨none, some (survivors ⟨true, true, true⟩), [], 1⟩ :=
  ⟨bestGuess_characterization.2.1 _ _ ⟨true, true, true⟩ rfl (by decide) (by decide),
   bestGuess_characterization.2.2 _ _ _ ⟨true, true, true⟩
     (bestGuess_characterization.2.1 _ _ ⟨true, true, true⟩ rfl (by decide) (by decide))⟩

/-- C6: for concrete source and target encodings, every entry of the
conversion table is defined and lies strictly between 0 and 255, whatever
integer the floating-point step produces. -/
theorem conversionTable_total (source target : BestGuess) (rawq : ℕ → ℤ)
    (i : ℕ) (hs : source ≠ BestGuess.NONE) (ht : target ≠ BestGuess.NONE) :
    ∃ v, buildConversionTable source target rawq i = some v ∧ 0 < v ∧ v < 255 := by
  cases source <;> first
  | exact absurd rfl hs
  | cases target <;> first
    | exact absurd rfl ht
    | · simp only [buildConversionTable, sourceFrom, initEntry, loopEntry]
        split_ifs <;> exact ⟨_, rfl, by omega⟩

/-- C6 witness: the Sanger-to-Solexa table at byte 200 (with the identity
oracle) has a defined entry strictly inside (0, 255). -/
theorem conversionTable_total_witness :
    BestGuess.SANGER ≠ BestGuess.NONE ∧ BestGuess.SOLEXA ≠ BestGuess.NONE ∧
    ∃ v, buildConversionTable BestGuess.SANGER BestGuess.SOLEXA
        (fun j => (j : ℤ)) 200 = some v ∧ 0 < v ∧ v < 255 :=
  ⟨by decide, by decide,
    conversionTable_total BestGuess.SANGER BestGuess.SOLEXA _ 200 (by decide) (by decide)⟩

/-- C8: when source and target scales coincide the quality string passes
through unchanged; otherwise the rewritten quality string has the same
length as the input and every position is the table image (through the
unsigned-byte cast) of the input byte at that position. -/
theorem convertQuality_pointwise (formatGuess outFormat : BestGuess)
    (table : ℕ → Option ℤ) (qual : List ℤ) :
    (formatGuess = outFormat →
      convertQuality formatGuess outFormat table qual = qual) ∧
    (formatGuess ≠ outFormat →
      (convertQuality formatGuess outFormat table qual).length = qual.length) ∧
    ∀ j, formatGuess ≠ outFormat → j < qual.length →
      (convertQuality formatGuess outFormat table qual).getD j 0 =
        tableLookup table (qual.getD j 0) := by
  refine ⟨fun h => by simp [convertQuality, h], fun h => by simp [convertQuality, h],
    fun j h hj => ?_⟩
  simp only [convertQuality, if_pos h]
  rw [List.getD_eq_getElem?_getD, List.getD_eq_getElem?_getD, List.getElem?_map,
    List.getElem?_eq_getElem hj]
  rfl

/-- C8 witness: remapping `[65, 70]` through a table, checked at position
0 with distinct source/target scales. -/
theorem convertQuality_pointwise_witness :
    BestGuess.SANGER ≠ BestGuess.SOLEXA ∧ (0 : ℕ) < ([65, 70] : List ℤ).length ∧
    (convertQuality BestGuess.SANGER BestGuess.SOLEXA
        (fun j => some ((j : ℤ) + 1)) [65, 70]).getD 0 0 =
      tableLookup (fun j => some ((j : ℤ) + 1)) (([65, 70] : List ℤ).getD 0 0) :=
  ⟨by decide, by decide,
    (convertQuality_pointwise BestGuess.SANGER BestGuess.SOLEXA
      (fun j => some ((j : ℤ) + 1)) [65, 70]).2.2 0 (by decide) (by decide)⟩

/-- C9: in guess-only mode, once the source scale is determined the run
writes exactly the diagnostic line `content-type: text/x-fastq-<scale>`
followed by a newline, with the scale one of sanger/solexa/illumina, exits
with code 0 and emits no record. -/
theorem guessOnly_diagnostic (opts : FxConvertOptions)
    (rawq : BestGuess → BestGuess → ℕ → ℤ) (recs : List FxRecord)
    (formatGuess : BestGuess) (hg : opts.guessFormat = true)
    (hstep : guessStep opts recs = GuessOutcome.ok formatGuess) :
    runConvertFastq opts rawq recs =
      ⟨some ("content-type: " ++ formatString formatGuess ++ "\n"), none, [], 0⟩ ∧
    ∃ scale, (scale = "sanger" ∨ scale = "solexa" ∨ scale = "illumina") ∧
      formatString formatGuess = "text/x-fastq-" ++ scale := by
  constructor
  · rw [runConvertFastq, hstep]
    simp only [hg, if_true]
  · cases formatGuess with
    | SOLEXA => exact ⟨"solexa", Or.inr (Or.inl rfl), by decide⟩
    | ILLUMINA => exact ⟨"illumina", Or.inr (Or.inr rfl), by decide⟩
    | _ => exact ⟨"sanger", Or.inl rfl, by decide⟩

/-- C9 witness: guess-only run with an explicitly given Solexa source on an
empty record stream. -/
theorem guessOnly_diagnostic_witness :
    (⟨false, false, true, Format.FASTQ_SOLEXA, Format.FASTA⟩ :
        FxConvertOptions).guessFormat = true ∧
    guessStep ⟨false, false, true, Format.FASTQ_SOLEXA, Format.FASTA⟩ [] =
      GuessOutcome.ok BestGuess.SOLEXA ∧
    (runConvertFastq ⟨false, false, true, Format.FASTQ_SOLEXA, Format.FASTA⟩
        (fun _ _ _ => 0) [] =
      ⟨some ("content-type: " ++ formatString BestGuess.SOLEXA ++ "\n"), none, [], 0⟩ ∧
    ∃ scale, (scale = "sanger" ∨ scale = "solexa" ∨ scale = "illumina") ∧
      formatString BestGuess.SOLEXA = "text/x-fastq-" ++ scale) :=
  ⟨rfl, by decide,
    guessOnly_diagnostic ⟨false, false, true, Format.FASTQ_SOLEXA, Format.FASTA⟩
      (fun _ _ _ => 0) [] BestGuess.SOLEXA rfl (by decide)⟩

/-- `-10 * log10 (10 ^ y) = -10 * y` in exact real arithmetic. -/
theorem neg_ten_logb_rpow (y : ℝ) :
    -10 * Real.logb 10 ((10 : ℝ) ^ y) = -10 * y := by
  rw [Real.logb_rpow (by norm_num) (by norm_num)]

/-- Truncation toward zero of an integer-valued real is that integer. -/
theorem truncD_intCast (n : ℤ) : truncD (n : ℝ) = n := by
  rw [truncD]
  split_ifs
  · exact Int.floor_intCast n
  · exact Int.ceil_intCast n

/-- C7: in the Sanger-to-Sanger table, byte 73 maps to itself: the error
probability is exactly `10^(-4)`, the recovered quality is exactly 40 (so
truncation and rounding agree and the `[0, 93]` clamp is a no-op), and the
offset 33 reproduces the input byte. -/
theorem sanger_roundtrip_73 :
    errorProb BestGuess.SANGER 73 = (10 : ℝ) ^ (-4 : ℝ) ∧
    exactRawq BestGuess.SANGER BestGuess.SANGER 73 = 40 ∧
    buildConversionTable BestGuess.SANGER BestGuess.SANGER
      (exactRawq BestGuess.SANGER BestGuess.SANGER) 73 = some 73 := by
  have hp : errorProb BestGuess.SANGER 73 = (10 : ℝ) ^ (-4 : ℝ) := by
    show (10 : ℝ) ^ ((((73 : ℕ) : ℝ) - 33) / (-10 : ℝ)) = (10 : ℝ) ^ (-4 : ℝ)
    norm_num
  have hq : exactRawq BestGuess.SANGER BestGuess.SANGER 73 = 40 := by
    show truncD (-10 * Real.logb 10 (errorProb BestGuess.SANGER 73)) = 40
    rw [hp, neg_ten_logb_rpow]
    have : (-10 : ℝ) * (-4 : ℝ) = ((40 : ℤ) : ℝ) := by norm_num
    rw [this, truncD_intCast]
  refine ⟨hp, hq, ?_⟩
  rw [buildConversionTable]
  show (if 33 ≤ 73 ∧ 73 ≤ 126 then
      some (loopEntry BestGuess.SANGER (exactRawq BestGuess.SANGER BestGuess.SANGER 73))
    else initEntry BestGuess.SANGER 33 73) = some 73
  rw [if_pos (by omega), hq]
  decide

/-- C2 (code defect): converting into the Illumina scale does not apply the
specified `round`/clamp-to-`[0, 62]`/add-64 pipeline.  For source Sanger at
byte 43 the error probability is exactly `10^(-1)` and the pre-clamp quality
is exactly 10, so the specified entry would be `10 + 64 = 74`; the code's
branch (`if (q < 0) q = 62; if (q > 0) q = 62;`) instead forces the entry to
`62 + 64 = 126`. -/
theorem illumina_target_collapses :
    errorProb BestGuess.SANGER 43 = (10 : ℝ) ^ (-1 : ℝ) ∧
    exactRawq BestGuess.SANGER BestGuess.ILLUMINA 43 = 10 ∧
    buildConversionTable BestGuess.SANGER BestGuess.ILLUMINA
      (exactRawq BestGuess.SANGER BestGuess.ILLUMINA) 43 = some 126 ∧
    buildConversionTable BestGuess.SANGER BestGuess.ILLUMINA
      (exactRawq BestGuess.SANGER BestGuess.ILLUMINA) 43 ≠ some 74 := by
  have hp : errorProb BestGuess.SANGER 43 = (10 : ℝ) ^ (-1 : ℝ) := by
    show (10 : ℝ) ^ ((((43 : ℕ) : ℝ) - 33) / (-10 : ℝ)) = (10 : ℝ) ^ (-1 : ℝ)
    norm_num
  have hq : exactRawq BestGuess.SANGER BestGuess.ILLUMINA 43 = 10 := by
    show truncD (-10 * Real.logb 10 (errorProb BestGuess.SANGER 43)) = 10
    rw [hp, neg_ten_logb_rpow]
    have : (-10 : ℝ) * (-1 : ℝ) = ((10 : ℤ) : ℝ) := by norm_num
    rw [this, truncD_intCast]
  have htab : buildConversionTable BestGuess.SANGER BestGuess.ILLUMINA
      (exactRawq BestGuess.SANGER BestGuess.ILLUMINA) 43 = some 126 := by
    rw [buildConversionTable]
    show (if 33 ≤ 43 ∧ 43 ≤ 126 then
        some (loopEntry BestGuess.ILLUMINA (exactRawq BestGuess.SANGER BestGuess.ILLUMINA 43))
      else initEntry BestGuess.ILLUMINA 33 43) = some 126
    rw [if_pos (by omega), hq]
    decide
  exact ⟨hp, hq, htab, by rw [htab]; decide⟩
